import Mathlib

/-!
Verification development for the emotion-analysis core of the Schumi
repository (src/app/ai/emotion_detector.py).  Python floats are modelled
as exact rationals or reals; machine rounding noise is outside the model.
External library calls (TensorFlow, OpenCV, numpy image ops, base64) are
modelled as abstract environment operations; all in-repository logic is
translated directly from the source.
-/

/-- Rounding used by Python's builtin round: round-half-to-even.
Models `round(q)` (and `int(round(q))`) for a real value q. -/
def pyRound (q : ℚ) : ℤ :=
  if q - ⌊q⌋ < 1/2 then ⌊q⌋
  else if 1/2 < q - ⌊q⌋ then ⌊q⌋ + 1
  else if ⌊q⌋ % 2 = 0 then ⌊q⌋ else ⌊q⌋ + 1

/-- Models Python's `round(q, 1)`: round to one decimal place, half to even. -/
def round1 (q : ℚ) : ℚ := (pyRound (q * 10) : ℚ) / 10

lemma pyRound_bounds (q : ℚ) : q - 1/2 ≤ (pyRound q : ℚ) ∧ (pyRound q : ℚ) ≤ q + 1/2 := by
  have h1 : (⌊q⌋ : ℚ) ≤ q := Int.floor_le q
  have h2 : q < ⌊q⌋ + 1 := Int.lt_floor_add_one q
  unfold pyRound
  split_ifs with ha hb hc <;> constructor <;> push_cast <;> linarith

lemma pyRound_le_of_le (q : ℚ) (n : ℤ) (h : q ≤ (n : ℚ)) : pyRound q ≤ n := by
  have h1 : (⌊q⌋ : ℚ) ≤ q := Int.floor_le q
  have hfn : ⌊q⌋ ≤ n := by
    have := Int.floor_le_floor h
    simpa using this
  unfold pyRound
  split_ifs with ha hb hc
  · exact hfn
  · have : (⌊q⌋ : ℚ) < (n : ℚ) - 1/2 := by linarith
    have : (⌊q⌋ : ℚ) < (n : ℚ) := by linarith
    have : ⌊q⌋ < n := by exact_mod_cast this
    omega
  · exact hfn
  · have hr : q - ⌊q⌋ = 1/2 := by linarith
    have : (⌊q⌋ : ℚ) ≤ (n : ℚ) - 1/2 := by linarith
    have : (⌊q⌋ : ℚ) < (n : ℚ) := by linarith
    have : ⌊q⌋ < n := by exact_mod_cast this
    omega

lemma int_le_pyRound (n : ℤ) (q : ℚ) (h : (n : ℚ) ≤ q) : n ≤ pyRound q := by
  have hfn : n ≤ ⌊q⌋ := Int.le_floor.mpr h
  unfold pyRound
  split_ifs <;> omega

lemma pyRound_intCast (n : ℤ) : pyRound (n : ℚ) = n := by
  unfold pyRound
  rw [Int.floor_intCast]
  simp

lemma round1_bounds (q : ℚ) (h0 : 0 ≤ q) (h1 : q ≤ 100) : 0 ≤ round1 q ∧ round1 q ≤ 100 := by
  have hlo : (0 : ℤ) ≤ pyRound (q * 10) := int_le_pyRound 0 (q * 10) (by push_cast; linarith)
  have hhi : pyRound (q * 10) ≤ (1000 : ℤ) := pyRound_le_of_le (q * 10) 1000 (by push_cast; linarith)
  constructor
  · unfold round1
    have : (0 : ℚ) ≤ (pyRound (q * 10) : ℚ) := by exact_mod_cast hlo
    linarith
  · unfold round1
    have : (pyRound (q * 10) : ℚ) ≤ 1000 := by exact_mod_cast hhi
    linarith

/-- The seven emotion labels, in model-output order (from EMOTION_LABELS). -/
def EMOTION_LABELS : List String :=
  ["Rabbia", "Disgusto", "Paura", "Felicita\x27",
   "Neutralita\x27", "Tristezza", "Sorpresa"]

/-- The stress/calm/focus triple (values are Python floats, modelled as rationals). -/
structure Metrics where
  stress : ℚ
  calm : ℚ
  focus : ℚ
  deriving DecidableEq

/-- Models Python dict lookup `emotion_probs.get(k, 0)` on a probability mapping. -/
def pget (ps : List (String × ℚ)) (k : String) : ℚ := ((ps.lookup k).getD 0)

/-- Translation of `_map_emotions_to_metrics`.  The try/except wrapper of the
source cannot fire in this model (all operations are total), so the fallback
branch is unreachable and omitted; `get_emotion_metrics` carries the
caller-level fallback. -/
def mapEmotionsToMetrics (ps : List (String × ℚ)) : Metrics :=
  let stress := pget ps "Rabbia" * 1 + pget ps "Disgusto" * (9/10) +
    pget ps "Paura" * (9/10) + pget ps "Tristezza" * (1/2) + pget ps "Sorpresa" * (1/5)
  let calm := pget ps "Neutralita\x27" * 1 + pget ps "Felicita\x27" * (8/10)
  let focus := pget ps "Neutralita\x27" * (8/10) + pget ps "Sorpresa" * (6/10) +
    pget ps "Felicita\x27" * (1/2) - pget ps "Paura" * (1/2) - pget ps "Rabbia" * (1/2)
  let stressC := max 0 (min 100 (stress * 100))
  let calmC := max 0 (min 100 (calm * 100))
  let focusC := max 0 (min 100 (focus * 100))
  { stress := round1 stressC, calm := round1 calmC, focus := round1 focusC }

/-- Fallback metric triple returned by `get_emotion_metrics` on missing input. -/
def fallbackMetrics : Metrics := { stress := 25, calm := 50, focus := 50 }

/-- The result dict of `analyze_frame` seen through `get_emotion_metrics`:
only presence or absence of the probability mapping under the key probs
matters (other keys are never read by `get_emotion_metrics`). -/
structure EmotionData where
  probs : Option (List (String × ℚ))

/-- Translation of `get_emotion_metrics`: a falsy (absent or empty) input or
one without a probs key gives the fixed fallback, otherwise the mapper runs
on the stored mapping.  An empty dict is falsy and also has no probs key, so
both Python conditions collapse to the two cases below. -/
def getEmotionMetrics (d : Option EmotionData) : Metrics :=
  match d with
  | none => fallbackMetrics
  | some ed =>
    match ed.probs with
    | none => fallbackMetrics
    | some ps => mapEmotionsToMetrics ps

/-- One-hot probability mapping on anger (label Rabbia), zero elsewhere. -/
def angerOneHot : List (String × ℚ) :=
  [("Rabbia", 1), ("Disgusto", 0), ("Paura", 0), ("Felicita\x27", 0),
   ("Neutralita\x27", 0), ("Tristezza", 0), ("Sorpresa", 0)]

lemma clamp_mem (v : ℚ) : 0 ≤ max 0 (min 100 v) ∧ max 0 (min 100 v) ≤ 100 :=
  ⟨le_max_left _ _, max_le (by norm_num) (min_le_left _ _)⟩

/-- C4: for every probability mapping (missing labels defaulting to 0, even
with invalid sum), `_map_emotions_to_metrics` produces the linear-formula
values scaled by 100, clamped to [0,100] and rounded to one decimal, so every
returned value lies in [0,100]; the one-hot anger mapping yields
stress 100.0, calm 0.0, focus 0.0. -/
theorem c4_metrics_bounds :
    (∀ ps : List (String × ℚ),
      0 ≤ (mapEmotionsToMetrics ps).stress ∧ (mapEmotionsToMetrics ps).stress ≤ 100 ∧
      0 ≤ (mapEmotionsToMetrics ps).calm ∧ (mapEmotionsToMetrics ps).calm ≤ 100 ∧
      0 ≤ (mapEmotionsToMetrics ps).focus ∧ (mapEmotionsToMetrics ps).focus ≤ 100) ∧
    mapEmotionsToMetrics angerOneHot = { stress := 100, calm := 0, focus := 0 } := by
  constructor
  · intro ps
    dsimp only [mapEmotionsToMetrics]
    refine ⟨?_, ?_, ?_, ?_, ?_, ?_⟩ <;>
      first
        | exact (round1_bounds _ (clamp_mem _).1 (clamp_mem _).2).1
        | exact (round1_bounds _ (clamp_mem _).1 (clamp_mem _).2).2
  · show mapEmotionsToMetrics angerOneHot = { stress := 100, calm := 0, focus := 0 }
    have h1 : pget angerOneHot "Rabbia" = 1 := by decide
    have h2 : pget angerOneHot "Disgusto" = 0 := by decide
    have h3 : pget angerOneHot "Paura" = 0 := by decide
    have h4 : pget angerOneHot "Felicita\x27" = 0 := by decide
    have h5 : pget angerOneHot "Neutralita\x27" = 0 := by decide
    have h6 : pget angerOneHot "Tristezza" = 0 := by decide
    have h7 : pget angerOneHot "Sorpresa" = 0 := by decide
    simp only [mapEmotionsToMetrics, h1, h2, h3, h4, h5, h6, h7]
    norm_num [round1, pyRound, Metrics.mk.injEq]

/-- C10: `get_emotion_metrics` returns the fixed fallback triple on an absent
input or one lacking a probs entry, and otherwise returns the metric mapping
of the stored probability mapping; it is a total function (never raises). -/
theorem c10_get_metrics (ps : List (String × ℚ)) (ed : EmotionData)
    (hed : ed.probs = none) :
    getEmotionMetrics none = fallbackMetrics ∧
    getEmotionMetrics (some ed) = fallbackMetrics ∧
    getEmotionMetrics (some { probs := some ps }) = mapEmotionsToMetrics ps := by
  refine ⟨rfl, ?_, rfl⟩
  simp only [getEmotionMetrics, hed]

theorem c10_get_metrics_witness :
    getEmotionMetrics none = fallbackMetrics ∧
    getEmotionMetrics (some { probs := none }) = fallbackMetrics ∧
    getEmotionMetrics (some { probs := some angerOneHot }) = mapEmotionsToMetrics angerOneHot :=
  c10_get_metrics angerOneHot { probs := none } rfl

/-- Translation of `_expand_bbox`.  The image shape is passed height first
(Python reads `h_img, w_img = image_shape[:2]`); all float arithmetic is
exact here, and Python `int(round(.))` is `pyRound`. -/
def expandBbox (hImg wImg : ℤ) (bbox : ℤ × ℤ × ℤ × ℤ) (margin : ℚ)
    (makeSquare : Bool) : ℤ × ℤ × ℤ × ℤ :=
  let x := bbox.1
  let y := bbox.2.1
  let w := bbox.2.2.1
  let h := bbox.2.2.2
  let cx : ℚ := x + w / 2
  let cy : ℚ := y + h / 2
  let w2 : ℚ := w * (1 + margin)
  let h2 : ℚ := h * (1 + margin)
  let w3 : ℚ := if makeSquare then max w2 h2 else w2
  let h3 : ℚ := if makeSquare then max w2 h2 else h2
  let x2 : ℤ := max 0 (pyRound (cx - w3 / 2))
  let y2 : ℤ := max 0 (pyRound (cy - h3 / 2))
  let w4 : ℤ := pyRound w3
  let h4 : ℤ := pyRound h3
  let w5 : ℤ := if x2 + w4 > wImg then wImg - x2 else w4
  let h5 : ℤ := if y2 + h4 > hImg then hImg - y2 else h4
  (x2, y2, w5, h5)

lemma clampDim (L : ℤ) (t side : ℚ) (hL : 0 < L) (hside : (5/4 : ℚ) ≤ side)
    (ht : t ≤ (L : ℚ) - 9/8) :
    0 ≤ max 0 (pyRound t) ∧
    max 0 (pyRound t) +
      (if max 0 (pyRound t) + pyRound side > L then L - max 0 (pyRound t) else pyRound side) ≤ L ∧
    0 < (if max 0 (pyRound t) + pyRound side > L then L - max 0 (pyRound t) else pyRound side) := by
  have h1 : (pyRound t : ℚ) ≤ t + 1/2 := (pyRound_bounds t).2
  have h2 : side - 1/2 ≤ (pyRound side : ℚ) := (pyRound_bounds side).1
  have hs1 : 1 ≤ pyRound side := by
    have : (0 : ℚ) < (pyRound side : ℚ) := by linarith
    have : (0 : ℤ) < pyRound side := by exact_mod_cast this
    omega
  have hxlt : max 0 (pyRound t) < L := by
    apply max_lt hL
    have : (pyRound t : ℚ) < (L : ℚ) := by linarith
    exact_mod_cast this
  refine ⟨le_max_left _ _, ?_, ?_⟩ <;> split_ifs with hif <;> omega

/-- C6 amended: for a non-empty image and a bounding box of positive size
lying fully inside the image bounds, `_expand_bbox` with the call-site
parameters (margin 0.25, square) returns a box fully inside the image
bounds with positive width, height and area.  (The original claim over
arbitrary input boxes is refuted by c6_counterexample.) -/
theorem c6_expand_inside (hImg wImg x y w h : ℤ) (hx : 0 ≤ x) (hy : 0 ≤ y)
    (hw : 1 ≤ w) (hh : 1 ≤ h) (hxw : x + w ≤ wImg) (hyh : y + h ≤ hImg) :
    0 ≤ (expandBbox hImg wImg (x, y, w, h) (1/4) true).1 ∧
    0 ≤ (expandBbox hImg wImg (x, y, w, h) (1/4) true).2.1 ∧
    (expandBbox hImg wImg (x, y, w, h) (1/4) true).1 +
      (expandBbox hImg wImg (x, y, w, h) (1/4) true).2.2.1 ≤ wImg ∧
    (expandBbox hImg wImg (x, y, w, h) (1/4) true).2.1 +
      (expandBbox hImg wImg (x, y, w, h) (1/4) true).2.2.2 ≤ hImg ∧
    0 < (expandBbox hImg wImg (x, y, w, h) (1/4) true).2.2.1 ∧
    0 < (expandBbox hImg wImg (x, y, w, h) (1/4) true).2.2.2 ∧
    0 < (expandBbox hImg wImg (x, y, w, h) (1/4) true).2.2.1 *
      (expandBbox hImg wImg (x, y, w, h) (1/4) true).2.2.2 := by
  have hw' : (1 : ℚ) ≤ (w : ℚ) := by exact_mod_cast hw
  have hh' : (1 : ℚ) ≤ (h : ℚ) := by exact_mod_cast hh
  have hx' : (0 : ℚ) ≤ (x : ℚ) := by exact_mod_cast hx
  have hy' : (0 : ℚ) ≤ (y : ℚ) := by exact_mod_cast hy
  have hxw' : (x : ℚ) + (w : ℚ) ≤ (wImg : ℚ) := by exact_mod_cast hxw
  have hyh' : (y : ℚ) + (h : ℚ) ≤ (hImg : ℚ) := by exact_mod_cast hyh
  have hsidew : (w : ℚ) * (1 + 1/4) ≤ max ((w : ℚ) * (1 + 1/4)) ((h : ℚ) * (1 + 1/4)) :=
    le_max_left _ _
  have hsideh : (h : ℚ) * (1 + 1/4) ≤ max ((w : ℚ) * (1 + 1/4)) ((h : ℚ) * (1 + 1/4)) :=
    le_max_right _ _
  have hside : (5/4 : ℚ) ≤ max ((w : ℚ) * (1 + 1/4)) ((h : ℚ) * (1 + 1/4)) := by
    have : (5/4 : ℚ) ≤ (w : ℚ) * (1 + 1/4) := by nlinarith
    linarith
  have hLw : 0 < wImg := by
    have : (0 : ℚ) < (wImg : ℚ) := by linarith
    exact_mod_cast this
  have hLh : 0 < hImg := by
    have : (0 : ℚ) < (hImg : ℚ) := by linarith
    exact_mod_cast this
  have htx : (x : ℚ) + (w : ℚ) / 2 - max ((w : ℚ) * (1 + 1/4)) ((h : ℚ) * (1 + 1/4)) / 2 ≤
      (wImg : ℚ) - 9/8 := by nlinarith
  have hty : (y : ℚ) + (h : ℚ) / 2 - max ((w : ℚ) * (1 + 1/4)) ((h : ℚ) * (1 + 1/4)) / 2 ≤
      (hImg : ℚ) - 9/8 := by nlinarith
  have Hx := clampDim wImg _ _ hLw hside htx
  have Hy := clampDim hImg _ _ hLh hside hty
  dsimp only [expandBbox]
  rw [if_pos rfl, if_pos rfl]
  exact ⟨Hx.1, Hy.1, Hx.2.1, Hy.2.1, Hx.2.2, Hy.2.2, mul_pos Hx.2.2 Hy.2.2⟩

theorem c6_expand_inside_witness :
    0 ≤ (expandBbox 100 100 (10, 10, 20, 20) (1/4) true).1 ∧
    0 ≤ (expandBbox 100 100 (10, 10, 20, 20) (1/4) true).2.1 ∧
    (expandBbox 100 100 (10, 10, 20, 20) (1/4) true).1 +
      (expandBbox 100 100 (10, 10, 20, 20) (1/4) true).2.2.1 ≤ 100 ∧
    (expandBbox 100 100 (10, 10, 20, 20) (1/4) true).2.1 +
      (expandBbox 100 100 (10, 10, 20, 20) (1/4) true).2.2.2 ≤ 100 ∧
    0 < (expandBbox 100 100 (10, 10, 20, 20) (1/4) true).2.2.1 ∧
    0 < (expandBbox 100 100 (10, 10, 20, 20) (1/4) true).2.2.2 ∧
    0 < (expandBbox 100 100 (10, 10, 20, 20) (1/4) true).2.2.1 *
      (expandBbox 100 100 (10, 10, 20, 20) (1/4) true).2.2.2 :=
  c6_expand_inside 100 100 10 10 20 20 (by norm_num) (by norm_num) (by norm_num)
    (by norm_num) (by norm_num) (by norm_num)

/-- C6 counterexample: for an arbitrary input box the claim fails.  A box
outside a 100 by 100 image comes back with width -99 (negative area), and the
degenerate box (0,0,0,0) comes back unchanged with area 0; so expand does not
return a box of positive area for every input box. -/
theorem c6_counterexample :
    expandBbox 100 100 (200, 0, 10, 10) (1/4) true = (199, 0, -99, 12) ∧
    ¬ 0 < (expandBbox 100 100 (200, 0, 10, 10) (1/4) true).2.2.1 ∧
    expandBbox 100 100 (0, 0, 0, 0) (1/4) true = (0, 0, 0, 0) ∧
    ¬ 0 < (expandBbox 100 100 (0, 0, 0, 0) (1/4) true).2.2.1 *
      (expandBbox 100 100 (0, 0, 0, 0) (1/4) true).2.2.2 := by
  have e1 : expandBbox 100 100 (200, 0, 10, 10) (1/4) true = (199, 0, -99, 12) := by
    norm_num [expandBbox, pyRound, Prod.ext_iff]
  have e2 : expandBbox 100 100 (0, 0, 0, 0) (1/4) true = (0, 0, 0, 0) := by
    norm_num [expandBbox, pyRound, Prod.ext_iff]
  refine ⟨e1, ?_, e2, ?_⟩
  · rw [e1]; norm_num
  · rw [e2]; norm_num

/-- C7: with margin 0 and make_square false, `_expand_bbox` returns any box
fully inside the image bounds unchanged, and is therefore idempotent under
repeated application with those parameters. -/
theorem c7_expand_noop (hImg wImg x y w h : ℤ) (hx : 0 ≤ x) (hy : 0 ≤ y)
    (_hw : 0 < w) (_hh : 0 < h) (hxw : x + w ≤ wImg) (hyh : y + h ≤ hImg) :
    expandBbox hImg wImg (x, y, w, h) 0 false = (x, y, w, h) ∧
    expandBbox hImg wImg (expandBbox hImg wImg (x, y, w, h) 0 false) 0 false =
      expandBbox hImg wImg (x, y, w, h) 0 false := by
  have hid : expandBbox hImg wImg (x, y, w, h) 0 false = (x, y, w, h) := by
    dsimp only [expandBbox]
    rw [if_neg (by simp), if_neg (by simp)]
    have ex : (x : ℚ) + (w : ℚ) / 2 - (w : ℚ) * (1 + 0) / 2 = ((x : ℤ) : ℚ) := by ring
    have ey : (y : ℚ) + (h : ℚ) / 2 - (h : ℚ) * (1 + 0) / 2 = ((y : ℤ) : ℚ) := by ring
    have ew : (w : ℚ) * (1 + 0) = ((w : ℤ) : ℚ) := by ring
    have eh : (h : ℚ) * (1 + 0) = ((h : ℤ) : ℚ) := by ring
    rw [ex, ey, ew, eh, pyRound_intCast, pyRound_intCast, pyRound_intCast, pyRound_intCast]
    rw [max_eq_right hx, max_eq_right hy]
    rw [if_neg (by omega), if_neg (by omega)]
  exact ⟨hid, by rw [hid, hid]⟩

theorem c7_expand_noop_witness :
    expandBbox 100 80 (5, 6, 30, 40) 0 false = (5, 6, 30, 40) ∧
    expandBbox 100 80 (expandBbox 100 80 (5, 6, 30, 40) 0 false) 0 false =
      expandBbox 100 80 (5, 6, 30, 40) 0 false :=
  c7_expand_noop 100 80 5 6 30 40 (by norm_num) (by norm_num) (by norm_num)
    (by norm_num) (by norm_num) (by norm_num)

/-- Guard of `_to_probabilities`: all entries finite (identically true in the
real-number model), all at least -1e-6, and the sum close to 1 in the sense
of np.isclose with atol 1e-3 and the numpy default rtol 1e-5, whose bound is
atol + rtol * abs(1.0). -/
def passthroughOk (arr : List ℝ) : Prop :=
  (∀ a ∈ arr, -(1/1000000) ≤ a) ∧ |arr.sum - 1| ≤ 1/1000 + (1/100000) * |(1 : ℝ)|

/-- Guard as the spec words it for C5: sum within plain absolute tolerance
1e-3 of 1.0 (no relative-tolerance term). -/
def specPassthroughOk (arr : List ℝ) : Prop :=
  (∀ a ∈ arr, -(1/1000000) ≤ a) ∧ |arr.sum - 1| ≤ 1/1000

/-- Models np.max on a vector (meaningful for nonempty input). -/
noncomputable def maxEntry (l : List ℝ) : ℝ := l.foldl max (l.headD 0)

/-- The numerically stable softmax the spec describes for C5: subtract the
maximum entry, exponentiate, divide by the sum of exponentials. -/
noncomputable def stableSoftmax (arr : List ℝ) : List ℝ :=
  (arr.map fun a => Real.exp (a - maxEntry arr)).map
    fun v => v / (arr.map fun a => Real.exp (a - maxEntry arr)).sum

open Classical

/-- Translation of `_to_probabilities` on a 1-D prediction vector.  The empty
case of the softmax path models np.max raising on an empty array, which the
except clause turns into None; the degenerate-denominator branch returns the
uniform vector np.ones_like(arr) / max(1, n). -/
noncomputable def toProbabilities (arr : List ℝ) : Option (List ℝ) :=
  if passthroughOk arr then some arr
  else if arr = [] then none
  else if (arr.map fun a => Real.exp (a - maxEntry arr)).sum ≤ 0 then
    some (List.replicate arr.length ((1 : ℝ) / ((max 1 arr.length : ℕ) : ℝ)))
  else
    some ((arr.map fun a => Real.exp (a - maxEntry arr)).map
      fun v => v / (arr.map fun a => Real.exp (a - maxEntry arr)).sum)

lemma list_sum_map_div (l : List ℝ) (d : ℝ) :
    (l.map fun v => v / d).sum = l.sum / d := by
  induction l with
  | nil => simp
  | cons a t ih => simp [ih, add_div]

lemma exps_sum_pos (arr : List ℝ) (hne : arr ≠ []) :
    0 < (arr.map fun a => Real.exp (a - maxEntry arr)).sum := by
  apply List.sum_pos
  · intro x hx
    rw [List.mem_map] at hx
    obtain ⟨a, -, rfl⟩ := hx
    exact Real.exp_pos _
  · simpa using hne

/-- C1 amended: for every nonempty raw output vector, `_to_probabilities`
returns a vector whose sum is within 1e-3 + 1e-5 of 1.0 and whose entries are
all at least -1e-6.  (The original claim that no entry is negative is refuted
by c1_counterexample: entries in [-1e-6, 0) pass through unchanged.) -/
theorem c1_normalize_safety (arr : List ℝ) (hne : arr ≠ []) :
    ∃ out, toProbabilities arr = some out ∧
      (∀ a ∈ out, -(1/1000000 : ℝ) ≤ a) ∧ |out.sum - 1| ≤ 1/1000 + 1/100000 := by
  by_cases hp : passthroughOk arr
  · refine ⟨arr, ?_, hp.1, ?_⟩
    · simp only [toProbabilities]
      rw [if_pos hp]
    · have h2 := hp.2
      rw [abs_one, mul_one] at h2
      exact h2
  · have hd := exps_sum_pos arr hne
    refine ⟨(arr.map fun a => Real.exp (a - maxEntry arr)).map
      (fun v => v / (arr.map fun a => Real.exp (a - maxEntry arr)).sum), ?_, ?_, ?_⟩
    · simp only [toProbabilities]
      rw [if_neg hp, if_neg hne, if_neg (not_le.mpr hd)]
    · intro a ha
      rw [List.mem_map] at ha
      obtain ⟨v, hv, rfl⟩ := ha
      rw [List.mem_map] at hv
      obtain ⟨b, -, rfl⟩ := hv
      have := div_pos (Real.exp_pos (b - maxEntry arr)) hd
      linarith
    · rw [list_sum_map_div, div_self (ne_of_gt hd)]
      norm_num

theorem c1_normalize_safety_witness :
    ∃ out, toProbabilities [0, 0, 0, 0, 0, 0, 0] = some out ∧
      (∀ a ∈ out, -(1/1000000 : ℝ) ≤ a) ∧ |out.sum - 1| ≤ 1/1000 + 1/100000 :=
  c1_normalize_safety [0, 0, 0, 0, 0, 0, 0] (by simp)

/-- Concrete vector refuting C1 as stated: it passes the identity guard of
`_to_probabilities` (entries at least -1e-6 and sum exactly 1) yet contains
the strictly negative entry -1e-7, which is returned unchanged. -/
noncomputable def cexC1vec : List ℝ := [-(1/10000000), 1 + 1/10000000, 0, 0, 0, 0, 0]

theorem c1_counterexample :
    toProbabilities cexC1vec = some cexC1vec ∧
    (-(1/10000000) : ℝ) ∈ cexC1vec ∧ (-(1/10000000) : ℝ) < 0 := by
  have hsum : cexC1vec.sum = 1 := by
    norm_num [cexC1vec]
  have hp : passthroughOk cexC1vec := by
    constructor
    · intro a ha
      simp only [cexC1vec, List.mem_cons, List.not_mem_nil, or_false] at ha
      rcases ha with rfl | rfl | rfl | rfl | rfl | rfl | rfl <;> norm_num
    · rw [hsum]
      norm_num
  refine ⟨?_, ?_, by norm_num⟩
  · simp only [toProbabilities]
    rw [if_pos hp]
  · simp [cexC1vec]

/-- C5 amended: for every nonempty raw output vector the function is the
stated dichotomy, except that the identity-path tolerance is the np.isclose
bound 1e-3 + 1e-5 (absolute plus default relative tolerance), not plain 1e-3:
vectors passing that guard are returned unchanged, all others get the stable
softmax (the uniform fallback is unreachable over the reals, where the
denominator is a finite sum of positive exponentials). -/
theorem c5_dichotomy (arr : List ℝ) (hne : arr ≠ []) :
    (passthroughOk arr → toProbabilities arr = some arr) ∧
    (¬ passthroughOk arr → toProbabilities arr = some (stableSoftmax arr)) := by
  constructor
  · intro hp
    simp only [toProbabilities]
    rw [if_pos hp]
  · intro hp
    have hd := exps_sum_pos arr hne
    simp only [toProbabilities]
    rw [if_neg hp, if_neg hne, if_neg (not_le.mpr hd)]
    rfl

theorem c5_dichotomy_witness :
    toProbabilities [1, 0, 0, 0, 0, 0, 0] = some [1, 0, 0, 0, 0, 0, 0] := by
  have hp : passthroughOk [1, 0, 0, 0, 0, 0, 0] := by
    constructor
    · intro a ha
      simp only [List.mem_cons, List.not_mem_nil, or_false] at ha
      rcases ha with rfl | rfl | rfl | rfl | rfl | rfl | rfl <;> norm_num
    · norm_num
  exact (c5_dichotomy [1, 0, 0, 0, 0, 0, 0] (by simp)).1 hp

/-- Concrete vector refuting C5 as stated: its sum differs from 1 by
0.001005, more than the absolute tolerance 1e-3 the spec states, so the spec
says the softmax applies; but np.isclose also grants rtol 1e-5, the code
guard passes, and the vector is returned unchanged (and it is not equal to
its own softmax, whose entries are all positive). -/
noncomputable def cexC5vec : List ℝ := [1 + 201/200000, 0, 0, 0, 0, 0, 0]

theorem c5_counterexample :
    ¬ specPassthroughOk cexC5vec ∧
    toProbabilities cexC5vec = some cexC5vec ∧
    toProbabilities cexC5vec ≠ some (stableSoftmax cexC5vec) := by
  have hsum : cexC5vec.sum = 1 + 201/200000 := by
    norm_num [cexC5vec]
  have hp : passthroughOk cexC5vec := by
    constructor
    · intro a ha
      simp only [cexC5vec, List.mem_cons, List.not_mem_nil, or_false] at ha
      rcases ha with rfl | rfl | rfl | rfl | rfl | rfl | rfl <;> norm_num
    · rw [hsum, show (1 : ℝ) + 201/200000 - 1 = 201/200000 by ring,
        abs_of_nonneg (by norm_num : (0 : ℝ) ≤ 201/200000)]
      norm_num
  have hpass : toProbabilities cexC5vec = some cexC5vec := by
    simp only [toProbabilities]
    rw [if_pos hp]
  refine ⟨?_, hpass, ?_⟩
  · rintro ⟨-, habs⟩
    rw [hsum, show (1 : ℝ) + 201/200000 - 1 = 201/200000 by ring,
      abs_of_nonneg (by norm_num : (0 : ℝ) ≤ 201/200000)] at habs
    norm_num at habs
  · intro heq
    rw [hpass] at heq
    have h2 : cexC5vec = stableSoftmax cexC5vec := Option.some.inj heq
    have hd := exps_sum_pos cexC5vec (by simp [cexC5vec])
    have h3 : cexC5vec.get? 1 = (stableSoftmax cexC5vec).get? 1 := by rw [← h2]
    have h4 : cexC5vec.get? 1 = some 0 := by simp [cexC5vec]
    have h5 : (stableSoftmax cexC5vec).get? 1 =
        some (Real.exp ((0 : ℝ) - maxEntry cexC5vec) /
          (cexC5vec.map fun a => Real.exp (a - maxEntry cexC5vec)).sum) := by
      simp only [stableSoftmax, List.get?_map]
      rw [show cexC5vec.get? 1 = some 0 from h4]
      rfl
    rw [h4, h5] at h3
    have h6 := Option.some.inj h3
    have h7 := div_pos (Real.exp_pos ((0 : ℝ) - maxEntry cexC5vec)) hd
    linarith [h6, h7]

/-- Opaque handle for a loaded Keras model. -/
abbrev Model := ℕ

/-- The cascade actually cached: either the configured custom file or the
OpenCV built-in frontal-face fallback. -/
inductive Cascade where
  | custom
  | builtin
  deriving DecidableEq

/-- The two module-level globals of emotion_detector.py that cache the lazily
loaded classifier bundle. -/
structure LoaderState where
  model : Option Model
  cascade : Option Cascade
  deriving DecidableEq

/-- Outcome of the external load attempts seen by one run of
`_load_model_and_cascade`: whether the tensorflow import (and config access)
succeeds, whether the model file exists, the result of
tf.keras.models.load_model (none models a raised exception), whether the
custom cascade path exists, and whether each CascadeClassifier loads empty. -/
structure LoadEnv where
  tfImportOk : Bool
  modelPathExists : Bool
  modelLoad : Option Model
  cascadePathExists : Bool
  customCascadeEmpty : Bool
  builtinCascadeEmpty : Bool
  deriving DecidableEq

/-- Translation of `_load_model_and_cascade` as a transition on the cached
globals, returning the new state and the returned pair.  The two
double-checks (before and inside the lock) collapse to one in this
sequential model.  Note the source assigns the global model before resolving
any cascade, and its failure exits return without clearing it. -/
def loadModelAndCascade (env : LoadEnv) (st : LoaderState) :
    LoaderState × (Option Model × Option Cascade) :=
  if st.model.isSome && st.cascade.isSome then (st, (st.model, st.cascade))
  else if !env.tfImportOk then (st, (none, none))
  else if !env.modelPathExists then (st, (none, none))
  else
    match env.modelLoad with
    | none => (st, (none, none))
    | some m =>
      let st1 : LoaderState := { st with model := some m }
      if env.cascadePathExists && !env.customCascadeEmpty then
        let st2 : LoaderState := { st1 with cascade := some Cascade.custom }
        (st2, (st2.model, st2.cascade))
      else if !env.builtinCascadeEmpty then
        let st2 : LoaderState := { st1 with cascade := some Cascade.builtin }
        (st2, (st2.model, st2.cascade))
      else (st1, (none, none))

/-- C2 amended: the invariant that actually holds is one-directional — after
any call the cached cascade is present only if the cached model is present,
and the pair returned to the caller is always both-present or both-absent.
The two-directional cache invariant of the claim fails when the model loads
and every cascade fails (c2_counterexample). -/
theorem c2_loader_invariant (env : LoadEnv) (st : LoaderState)
    (hinv : st.cascade.isSome = true → st.model.isSome = true) :
    ((loadModelAndCascade env st).1.cascade.isSome = true →
      (loadModelAndCascade env st).1.model.isSome = true) ∧
    ((loadModelAndCascade env st).2.1.isSome = true ↔
      (loadModelAndCascade env st).2.2.isSome = true) := by
  obtain ⟨tf, mpe, ml, cpe, cce, bce⟩ := env
  obtain ⟨sm, sc⟩ := st
  simp only [loadModelAndCascade] at *
  cases sm <;> cases sc <;> cases ml <;>
    cases tf <;> cases mpe <;> cases cpe <;> cases cce <;> cases bce <;>
    simp_all

theorem c2_loader_invariant_witness :
    ((loadModelAndCascade
        { tfImportOk := true, modelPathExists := true, modelLoad := some 0,
          cascadePathExists := true, customCascadeEmpty := false,
          builtinCascadeEmpty := false }
        { model := none, cascade := none }).1.cascade.isSome = true →
      (loadModelAndCascade
        { tfImportOk := true, modelPathExists := true, modelLoad := some 0,
          cascadePathExists := true, customCascadeEmpty := false,
          builtinCascadeEmpty := false }
        { model := none, cascade := none }).1.model.isSome = true) ∧
    ((loadModelAndCascade
        { tfImportOk := true, modelPathExists := true, modelLoad := some 0,
          cascadePathExists := true, customCascadeEmpty := false,
          builtinCascadeEmpty := false }
        { model := none, cascade := none }).2.1.isSome = true ↔
      (loadModelAndCascade
        { tfImportOk := true, modelPathExists := true, modelLoad := some 0,
          cascadePathExists := true, customCascadeEmpty := false,
          builtinCascadeEmpty := false }
        { model := none, cascade := none }).2.2.isSome = true) :=
  c2_loader_invariant
    { tfImportOk := true, modelPathExists := true, modelLoad := some 0,
      cascadePathExists := true, customCascadeEmpty := false,
      builtinCascadeEmpty := false }
    { model := none, cascade := none } (by simp)

/-- Environment refuting C2 as stated: tensorflow imports, the model file
exists and loads, but the custom cascade path is missing and the built-in
cascade loads empty. -/
def cexLoadEnv : LoadEnv :=
  { tfImportOk := true, modelPathExists := true, modelLoad := some 0,
    cascadePathExists := false, customCascadeEmpty := true,
    builtinCascadeEmpty := true }

theorem c2_counterexample :
    (loadModelAndCascade cexLoadEnv { model := none, cascade := none }).1.model.isSome = true ∧
    (loadModelAndCascade cexLoadEnv { model := none, cascade := none }).1.cascade.isSome
      = false := by
  decide

/-- Opaque handle for raw bytes produced by base64 decoding. -/
abbrev ByteBuf := ℕ

/-- A numpy/OpenCV image: its shape (height, width) as read by the source,
with an opaque token standing for the pixel contents. -/
structure Mat where
  h : ℤ
  w : ℤ
  tok : ℕ
  deriving DecidableEq

/-- The dict returned by `analyze_frame`: dominant emotion, label-to-value
probability mapping in label order, total time in milliseconds, and the
(expanded) bounding box dict or None. -/
structure AnalysisResult where
  emotion : String
  probs : List (String × ℝ)
  inferenceMs : ℚ
  bbox : Option (ℤ × ℤ × ℤ × ℤ)

/-- External operations the pipeline invokes: the loader outcome, Python
base64 and cv2 imdecode (None on failure), cv2 color conversion, cascade
multi-scale detection, the configured preprocessing mode, the model input
shape attribute (entries may be None), numpy slicing, cv2.resize (None
models a raised error, e.g. on a zero-size crop), color/value transforms,
numpy expand_dims, and model.predict returning a 2-D array as rows. -/
structure EnvOps where
  load : Option Model × Option Cascade
  b64decode : String → Option ByteBuf
  imdecode : ByteBuf → Option Mat
  cvtGray : Mat → Mat
  detectMultiScale : Cascade → Mat → List (ℤ × ℤ × ℤ × ℤ)
  preprocessMode : String
  inputShape : Model → List (Option ℤ)
  slice : Mat → ℤ → ℤ → ℤ → ℤ → Mat
  resize : Mat → ℤ → ℤ → Option Mat
  cvtRGB : Mat → Mat
  scale01 : Mat → Mat
  expandLast : Mat → Mat
  expandDims0 : Mat → Mat
  predict : Model → Mat → List (List ℝ)

/-- Models the payload extraction of `_decode_base64_image`: a string with
the data-URL marker is split on the first comma (no comma means the tuple
unpacking raises, caught as failure); any other string is the payload. -/
def splitPayload (s : String) : Option String :=
  if s.startsWith "data:image" then
    match s.splitOn "," with
    | [] => none
    | [_] => none
    | _ :: rest => some (String.intercalate "," rest)
  else some s

/-- Translation of `_decode_base64_image`: extract the payload, base64-decode
it, decode the bytes as a color image; every failure yields None and the
try/except guarantees no exception escapes. -/
def decodeBase64Image (env : EnvOps) (s : String) : Option Mat :=
  match splitPayload s with
  | none => none
  | some enc =>
    match env.b64decode enc with
    | none => none
    | some bs => env.imdecode bs

/-- Translation of `_detect_largest_face`: run the cascade on the grayscale
image; no detections is None, otherwise keep the first box maximising
w * h exactly as Python max does (strictly-greater replacement). -/
def detectLargestFace (env : EnvOps) (imageBgr : Mat) (cascade : Cascade) :
    Option (ℤ × ℤ × ℤ × ℤ) :=
  match env.detectMultiScale cascade (env.cvtGray imageBgr) with
  | [] => none
  | f :: fs => some (fs.foldl (fun best g =>
      if g.2.2.1 * g.2.2.2 > best.2.2.1 * best.2.2.2 then g else best) f)

/-- Translation of `_preprocess_face_image`: read (H, W, C) from a 4- or
3-length input shape (defaulting to 224, 224, 3 otherwise), crop the box via
numpy slicing, then branch on grayscale versus 3-channel and on the mode,
resizing and normalising as the source does and prepending the batch axis.
A None height or width makes cv2.resize raise, caught as None. -/
def preprocessFaceImage (env : EnvOps) (imageBgr : Mat) (bbox : ℤ × ℤ × ℤ × ℤ)
    (inputShape : List (Option ℤ)) (mode : String) : Option Mat :=
  let hwc : Option ℤ × Option ℤ × Option ℤ :=
    match inputShape with
    | [_, hh, ww, cc] => (hh, ww, cc)
    | [hh, ww, cc] => (hh, ww, cc)
    | _ => (some 224, some 224, some 3)
  match hwc with
  | (some hh, some ww, cc) =>
    let face := env.slice imageBgr bbox.2.1 (bbox.2.1 + bbox.2.2.2) bbox.1 (bbox.1 + bbox.2.2.1)
    if cc = some 1 then
      match env.resize (env.cvtGray face) ww hh with
      | none => none
      | some r =>
        if mode = "raw_bgr" then some (env.expandDims0 (env.expandLast r))
        else some (env.expandDims0 (env.expandLast (env.scale01 r)))
    else
      if mode = "raw_bgr" then (env.resize face ww hh).map env.expandDims0
      else ((env.resize (env.cvtRGB face) ww hh).map fun r => env.expandDims0 (env.scale01 r))
  | _ => none

/-- The source applies `_to_probabilities` to the 2-D predict output; its
first line takes row 0 (indexing an empty array would raise, caught as
None). -/
noncomputable def toProbabilitiesPred (predictions : List (List ℝ)) : Option (List ℝ) :=
  match predictions with
  | [] => none
  | row :: _ => toProbabilities row

/-- Python `max(emotion_probs, key=emotion_probs.get)` over the insertion
ordered dict: the first key of maximal value.  The empty case is unreachable
in `analyze_frame` (guarded by the length-7 check; Python would raise there,
caught by the outer except). -/
noncomputable def argmaxLabel (ps : List (String × ℝ)) : String :=
  match ps with
  | [] => ""
  | p :: rest => (rest.foldl (fun best q => if q.2 > best.2 then q else best) p).1

/-- Translation of `_get_neutral_emotion_data`: the dict comprehension sets
every label to 0.0, then Neutralita is overwritten in place to 1.0. -/
def getNeutralEmotionData : AnalysisResult :=
  { emotion := "Neutralita\x27",
    probs := [("Rabbia", 0), ("Disgusto", 0), ("Paura", 0), ("Felicita\x27", 0),
      ("Neutralita\x27", 1), ("Tristezza", 0), ("Sorpresa", 0)],
    inferenceMs := 0,
    bbox := none }

/-- Translation of `analyze_frame`.  The two time.time() readings are the
parameters t0 (call start) and t1 (the reading at the return point); the
inference lock wraps detection through predict but is invisible in this
sequential model. -/
noncomputable def analyzeFrame (env : EnvOps) (t0 t1 : ℚ) (imageDataUrl : String) :
    Option AnalysisResult :=
  match env.load with
  | (some model, some cascade) =>
    match decodeBase64Image env imageDataUrl with
    | none => none
    | some imageBgr =>
      match detectLargestFace env imageBgr cascade with
      | none => some { getNeutralEmotionData with inferenceMs := round1 ((t1 - t0) * 1000) }
      | some faceBbox =>
        let eb := expandBbox imageBgr.h imageBgr.w faceBbox (1/4) true
        match preprocessFaceImage env imageBgr eb (env.inputShape model) env.preprocessMode with
        | none => none
        | some faceInput =>
          match toProbabilitiesPred (env.predict model faceInput) with
          | none => none
          | some probsArray =>
            if probsArray.length ≠ EMOTION_LABELS.length then none
            else
              some { emotion := argmaxLabel (EMOTION_LABELS.zip probsArray),
                     probs := EMOTION_LABELS.zip probsArray,
                     inferenceMs := round1 ((t1 - t0) * 1000),
                     bbox := some eb }
  | _ => none

/-- C3: whenever the bundle is loaded, the image decodes, and face detection
finds no face, `analyze_frame` returns the neutral result: dominant emotion
Neutralita, probability 1.0 on Neutralita and 0.0 on the other six labels,
bbox absent, and the reported time is the elapsed wall clock from the start
of the whole call to that point, times 1000, rounded to one decimal. -/
theorem c3_neutral_result (env : EnvOps) (m : Model) (c : Cascade) (img : Mat)
    (t0 t1 : ℚ) (s : String)
    (hload : env.load = (some m, some c))
    (hdec : decodeBase64Image env s = some img)
    (hdet : env.detectMultiScale c (env.cvtGray img) = []) :
    analyzeFrame env t0 t1 s = some
      { emotion := "Neutralita\x27",
        probs := [("Rabbia", 0), ("Disgusto", 0), ("Paura", 0), ("Felicita\x27", 0),
          ("Neutralita\x27", 1), ("Tristezza", 0), ("Sorpresa", 0)],
        inferenceMs := round1 ((t1 - t0) * 1000),
        bbox := none } := by
  have hdf : detectLargestFace env img c = none := by
    unfold detectLargestFace
    rw [hdet]
  have h1 : analyzeFrame env t0 t1 s =
      (match detectLargestFace env img c with
       | none => some { getNeutralEmotionData with inferenceMs := round1 ((t1 - t0) * 1000) }
       | some faceBbox =>
         let eb := expandBbox img.h img.w faceBbox (1/4) true
         match preprocessFaceImage env img eb (env.inputShape m) env.preprocessMode with
         | none => none
         | some faceInput =>
           match toProbabilitiesPred (env.predict m faceInput) with
           | none => none
           | some probsArray =>
             if probsArray.length ≠ EMOTION_LABELS.length then none
             else
               some { emotion := argmaxLabel (EMOTION_LABELS.zip probsArray),
                      probs := EMOTION_LABELS.zip probsArray,
                      inferenceMs := round1 ((t1 - t0) * 1000),
                      bbox := some eb }) := by
    unfold analyzeFrame
    rw [hload, hdec]
  rw [h1, hdf]
  rfl

/-- Concrete environment for exercising the no-face path. -/
def cEnvC3 : EnvOps :=
  { load := (some 0, some Cascade.custom),
    b64decode := fun _ => some 0,
    imdecode := fun _ => some { h := 4, w := 4, tok := 0 },
    cvtGray := fun m => m,
    detectMultiScale := fun _ _ => [],
    preprocessMode := "rgb01",
    inputShape := fun _ => [none, some 224, some 224, some 3],
    slice := fun m _ _ _ _ => m,
    resize := fun m _ _ => some m,
    cvtRGB := fun m => m,
    scale01 := fun m => m,
    expandLast := fun m => m,
    expandDims0 := fun m => m,
    predict := fun _ _ => [] }

theorem c3_neutral_result_witness :
    analyzeFrame cEnvC3 0 0 "abc" = some
      { emotion := "Neutralita\x27",
        probs := [("Rabbia", 0), ("Disgusto", 0), ("Paura", 0), ("Felicita\x27", 0),
          ("Neutralita\x27", 1), ("Tristezza", 0), ("Sorpresa", 0)],
        inferenceMs := round1 ((0 - 0) * 1000),
        bbox := none } :=
  c3_neutral_result cEnvC3 0 Cascade.custom { h := 4, w := 4, tok := 0 } 0 0 "abc"
    rfl (by decide) rfl

/-- C8: `_decode_base64_image` is total with None as its only failure signal,
every failure mode (data-URL marker with no comma payload, base64 decode
error, unrecognised image bytes) yields None, and a decode failure makes
`analyze_frame` return None even with a loaded bundle; no exception reaches
the caller in the model (all paths return a value). -/
theorem c8_decode_safe (env : EnvOps) (m : Model) (c : Cascade) (t0 t1 : ℚ) :
    (∀ s, splitPayload s = none → decodeBase64Image env s = none) ∧
    (∀ s enc, splitPayload s = some enc → env.b64decode enc = none →
      decodeBase64Image env s = none) ∧
    (∀ s enc bs, splitPayload s = some enc → env.b64decode enc = some bs →
      env.imdecode bs = none → decodeBase64Image env s = none) ∧
    (∀ s, env.load = (some m, some c) → decodeBase64Image env s = none →
      analyzeFrame env t0 t1 s = none) := by
  refine ⟨?_, ?_, ?_, ?_⟩
  · intro s hs
    unfold decodeBase64Image
    rw [hs]
  · intro s enc hs hb
    have h1 : decodeBase64Image env s =
        (match env.b64decode enc with
          | none => (none : Option Mat)
          | some bs => env.imdecode bs) := by
      unfold decodeBase64Image
      rw [hs]
    rw [h1, hb]
  · intro s enc bs hs hb hi
    have h1 : decodeBase64Image env s =
        (match env.b64decode enc with
          | none => (none : Option Mat)
          | some bs2 => env.imdecode bs2) := by
      unfold decodeBase64Image
      rw [hs]
    rw [h1, hb]
    exact hi
  · intro s hload hdec
    unfold analyzeFrame
    rw [hload, hdec]

/-- Concrete environment whose base64 decoding always fails. -/
def cEnvC8 : EnvOps :=
  { load := (some 0, some Cascade.custom),
    b64decode := fun _ => none,
    imdecode := fun _ => none,
    cvtGray := fun m => m,
    detectMultiScale := fun _ _ => [],
    preprocessMode := "rgb01",
    inputShape := fun _ => [none, some 224, some 224, some 3],
    slice := fun m _ _ _ _ => m,
    resize := fun m _ _ => some m,
    cvtRGB := fun m => m,
    scale01 := fun m => m,
    expandLast := fun m => m,
    expandDims0 := fun m => m,
    predict := fun _ _ => [] }

theorem c8_decode_safe_witness :
    decodeBase64Image cEnvC8 "%%%" = none ∧ analyzeFrame cEnvC8 0 0 "%%%" = none := by
  have h := c8_decode_safe cEnvC8 0 Cascade.custom 0 0
  have hdec : decodeBase64Image cEnvC8 "%%%" = none :=
    h.2.1 "%%%" "%%%" (by decide) rfl
  exact ⟨hdec, h.2.2.2 "%%%" rfl hdec⟩
